import Mathlib

/-!
Verification development for the sqle task orchestration engine.

The definitions below are a shallow embedding of the scheduler
(`Sqled.addTask`, `Sqled.do`), the three workflows (`Sqled.audit`,
`Sqled.commit`, `Sqled.commitDDL`, `Sqled.commitDML`, `Sqled.rollback`),
the `round` helper, and the SQL Server object-name keyword rule
validator.  External collaborators (task store, dialect driver /
inspector) are modelled as explicit environments of call outcomes, and
each workflow additionally returns the trace of store and driver calls
it made, so that ordering and frame properties can be stated.
-/

namespace Sqle

/-- Modelled from the spec: the aggregate SQL type tags of the `model`
package (`SQL_TYPE_DML`, `SQL_TYPE_DDL`, `SQL_TYPE_MULTI`,
`SQL_TYPE_PROCEDURE_FUNCTION`, `SQL_TYPE_PROCEDURE_FUNCTION_MULTI`).
The source stores these as distinct strings, with an unset value for a
task that has not been classified; `unknown` stands for the unset
value. -/
inductive SqlType
  | unknown
  | dml
  | ddl
  | multi
  | procedureFunction
  | procedureFunctionMulti
  deriving DecidableEq, Repr

/-- Modelled from the spec: task status values of the `model` package
(`initialized`, `audited`, `executing`, `exec_succeeded`,
`exec_failed`). -/
inductive TaskStatus
  | initialized
  | audited
  | executing
  | execSucceeded
  | execFailed
  deriving DecidableEq, Repr

/-- Modelled from the spec: per-statement execution status values of
the `model` package (`initialized`, `doing`, `succeeded`, `failed`). -/
inductive SQLExecuteStatus
  | initialized
  | doing
  | succeeded
  | failed
  deriving DecidableEq, Repr

/-- Modelled from the spec: the audit severity level that counts as
passing (`model.RULE_LEVEL_NORMAL`). -/
def RULE_LEVEL_NORMAL : String := "normal"

/-- Modelled from the spec: the SQL source tag for tasks created from a
MyBatis XML bulk import (`model.TaskSQLSourceFromMyBatisXMLFile`). -/
def TaskSQLSourceFromMyBatisXMLFile : String := "mybatis_xml_file"

/-- Modelled from the spec: action kinds accepted by the scheduler
(`model.TASK_ACTION_AUDIT`, `TASK_ACTION_EXECUTE`,
`TASK_ACTION_ROLLBACK`), an integer enumeration in the source. -/
inductive ActionKind
  | audit
  | execute
  | rollback
  deriving DecidableEq, Repr

/-- Error values produced by the scheduler and the workflows, from the
`errors` package of the source. Storage and driver failures carry the
name of the failing call. -/
inductive Err
  | taskRunning
  | taskNotExist
  | actionNotAllowed
  | sqlTypeConflict
  | procedureFunctionConflict
  | execDDLFailed
  | storage (op : String)
  | driver (op : String)
  deriving DecidableEq, Repr

/-- Embedding of `model.BaseSQL`: the execution-related fields of one
statement record. -/
structure BaseSQL where
  number : Nat
  content : String
  execStatus : SQLExecuteStatus
  execResult : String
  deriving DecidableEq, Repr

/-- Embedding of `model.ExecuteSQL`: one statement of a task, with its
audit fields. -/
structure ExecuteSQL where
  base : BaseSQL
  auditStatus : String
  auditResult : String
  auditLevel : String
  deriving DecidableEq, Repr

/-- Embedding of `model.RollbackSQL`: one compensating statement. -/
structure RollbackSQL where
  base : BaseSQL
  deriving DecidableEq, Repr

/-- Embedding of `model.Task`: the task record as the workflows see
it. -/
structure Task where
  id : Nat
  instanceId : Nat
  schemaName : String
  sqlType : SqlType
  sqlSource : String
  passRate : ℚ
  status : TaskStatus
  executeSQLs : List ExecuteSQL
  rollbackSQLs : List RollbackSQL
  deriving DecidableEq, Repr

/-! ### The round helper (source lines 455-458)

`round(f, n)` in the source is `math.Trunc(f*p+0.5)/p` with
`p = 10^n`; the float64 arithmetic is modelled as exact rational
arithmetic. -/

/-- Truncation toward zero, the behaviour of `math.Trunc`. -/
def trunc (q : ℚ) : ℤ :=
  if 0 ≤ q then ⌊q⌋ else ⌈q⌉

/-- Embedding of the source helper `round`. -/
def round (f : ℚ) (n : Nat) : ℚ :=
  ((trunc (f * 10 ^ n + 1 / 2) : ℤ) : ℚ) / 10 ^ n

/-- Written from the words of the spec, not from the source: rounding
half-up to `n` decimal places. -/
def roundHalfUpSpec (f : ℚ) (n : Nat) : ℚ :=
  ((⌊f * 10 ^ n + 1 / 2⌋ : ℤ) : ℚ) / 10 ^ n

/-! ### Scheduler state and `Sqled.addTask` (source lines 65-118, 151-154)

The running-task guard `currentTask` is a set of task ids; the source
uses a Go map guarded by a mutex, and every access happens inside one
critical section, so the guard operations are modelled as atomic steps
on the state. The queue holds validated actions. -/

/-- Scheduler state: the running-task guard plus the action queue. -/
structure SqledState where
  currentTask : List String
  queue : List (Task × ActionKind)
  deriving DecidableEq, Repr

/-- Store environment for `addTask`: the outcome of
`GetTaskDetailById` per task id, and the outcome of
`task.ValidAction(typ)`. `ValidAction` itself is not part of the
sources; modelled from the spec, it answers whether the current task
status permits the requested action kind. -/
structure StoreEnv where
  getTaskDetailById : String → Except Err (Option Task)
  validActionOk : Task → ActionKind → Bool

/-- Embedding of `Sqled.addTask`: atomically check-and-insert the task
id into the running set; on success load and validate the task, then
queue the action; on any validation failure release the guard and
return the error (the `goto Error` paths of the source). -/
def addTask (env : StoreEnv) (s : SqledState) (taskId : String) (typ : ActionKind) :
    SqledState × Option Err :=
  if taskId ∈ s.currentTask then
    (s, some .taskRunning)
  else
    let s1 : SqledState := { s with currentTask := taskId :: s.currentTask }
    match env.getTaskDetailById taskId with
    | .error e => ({ s1 with currentTask := s1.currentTask.erase taskId }, some e)
    | .ok none => ({ s1 with currentTask := s1.currentTask.erase taskId }, some .taskNotExist)
    | .ok (some task) =>
      if env.validActionOk task typ then
        ({ s1 with queue := s1.queue ++ [(task, typ)] }, none)
      else
        ({ s1 with currentTask := s1.currentTask.erase taskId }, some .actionNotAllowed)

/-- Embedding of the guard release performed at the end of `Sqled.do`
(source lines 151-154): after the action has executed, its task id is
deleted from the running set. -/
def doRelease (s : SqledState) (taskId : String) : SqledState :=
  { s with currentTask := s.currentTask.erase taskId }

/-- N racing `addTask` calls on the same task id: the scheduler lock
serialises the guard sections, so a race is an arbitrary serial order
of the calls. Returns the final state and the per-call results in
order. -/
def runAddTasks (env : StoreEnv) (s : SqledState) (taskId : String) (typ : ActionKind) :
    Nat → SqledState × List (Option Err)
  | 0 => (s, [])
  | n + 1 =>
    let p := addTask env s taskId typ
    let q := runAddTasks env p.1 taskId typ n
    (q.1, p.2 :: q.2)

/-! ### The audit workflow (source lines 163-247)

The storage and inspector calls the workflow makes are modelled as an
environment of call outcomes; the workflow records every driver and
store call it performs as an event, so that the retry and persistence
behaviour can be stated as trace properties. -/

/-- Outcome of one `Inspector.Advise` pass: the statement list with
audit fields filled in, plus the two aggregate judgements
`SqlInvalid()` and `SqlType()` the inspector exposes afterwards. The
inspector is not part of the sources; modelled from the spec, an
advise pass rewrites the audit fields of the statements and judges the
batch. -/
structure AdviseOutcome where
  sqls : List ExecuteSQL
  sqlInvalid : Bool
  sqlType : SqlType
  deriving DecidableEq, Repr

/-- Environment of call outcomes for the audit workflow. The advise
outcome is a function of the related-DDL context the inspector was
given (`none` for the first pass over the task alone). -/
structure AuditEnv where
  getRules : Except Err Unit
  advise : Option (List Task) → Except Err AdviseOutcome
  getRelatedDDLTask : Except Err (List Task)
  genRollback : Except Err (List RollbackSQL)
  updateExecuteSQLsOk : Bool
  updateTaskOk : Bool
  updateRollbackSQLsOk : Bool

/-- Events the audit workflow can emit, in the order it performs the
corresponding calls. -/
inductive AuditEvent
  | adviseCall (related : Option (List Task))
  | genRollbackCall
  | storeUpdateExecuteSQLs
  | storeUpdateTask (sqlType : SqlType) (passRate : ℚ) (status : TaskStatus)
  | storeUpdateRollbackSQLs (sqls : List RollbackSQL)
  deriving DecidableEq, Repr

/-- Whether an audit event is an advise pass. -/
def AuditEvent.isAdviseCall : AuditEvent → Bool
  | .adviseCall _ => true
  | _ => false

/-- Number of advise passes recorded in a trace. -/
def adviseCount (evs : List AuditEvent) : Nat :=
  (evs.filter fun e => e.isAdviseCall).length

/-- Result of the audit workflow: the task as mutated in memory, the
trace of calls, and the error returned. -/
structure AuditResult where
  task : Task
  events : List AuditEvent
  err : Option Err
  deriving Repr

/-- Count of statements whose audit severity level is normal (the
loop at source lines 218-223). -/
def normalCount (sqls : List ExecuteSQL) : Nat :=
  (sqls.filter fun sql => sql.auditLevel = RULE_LEVEL_NORMAL).length

/-- Embedding of the advise-and-retry phase of `Sqled.audit` (source
lines 166-196): load rules, run the first advise pass, and when the
aggregate type is DML and the batch was judged invalid, fetch the
related DDL tasks and retry the advise once with all of them as extra
context. Returns the task after the phase, the aggregate SQL type and
batch-invalid judgement captured from the first pass, the events, and
the error. -/
def auditAdvise (env : AuditEnv) (task : Task) :
    Task × SqlType × Bool × List AuditEvent × Option Err :=
  match env.getRules with
  | .error e => (task, .unknown, false, [], some e)
  | .ok _ =>
    match env.advise none with
    | .error e => (task, .unknown, false, [.adviseCall none], some e)
    | .ok out1 =>
      let task1 : Task := { task with executeSQLs := out1.sqls }
      if out1.sqlType = .dml ∧ out1.sqlInvalid then
        match env.getRelatedDDLTask with
        | .error e => (task1, out1.sqlType, out1.sqlInvalid, [.adviseCall none], some e)
        | .ok relateTasks =>
          if relateTasks.length > 0 then
            match env.advise (some relateTasks) with
            | .error e => (task1, out1.sqlType, out1.sqlInvalid,
                [.adviseCall none, .adviseCall (some relateTasks)], some e)
            | .ok out2 => ({ task1 with executeSQLs := out2.sqls },
                out1.sqlType, out1.sqlInvalid,
                [.adviseCall none, .adviseCall (some relateTasks)], none)
          else (task1, out1.sqlType, out1.sqlInvalid, [.adviseCall none], none)
      else (task1, out1.sqlType, out1.sqlInvalid, [.adviseCall none], none)

/-- Embedding of the rollback-generation phase of `Sqled.audit`
(source lines 197-211): no generation when the first pass judged the
batch invalid or the task came from a MyBatis XML bulk import,
otherwise one generation pass over all statements. -/
def auditGenRollback (env : AuditEnv) (task : Task) (firstSqlInvalid : Bool) :
    List RollbackSQL × List AuditEvent × Option Err :=
  if firstSqlInvalid then ([], [], none)
  else if task.sqlSource = TaskSQLSourceFromMyBatisXMLFile then ([], [], none)
  else
    match env.genRollback with
    | .error e => ([], [.genRollbackCall], some e)
    | .ok sqls => (sqls, [.genRollbackCall], none)

/-- Embedding of the persistence phase of `Sqled.audit` (source lines
213-246): persist the statements, recompute the pass rate when the
task has at least one statement, set the status to audited, persist
the task fields, and persist the rollback statements only when any
were produced. -/
def auditPersist (env : AuditEnv) (task2 : Task) (sqlType : SqlType)
    (rollbackSqls : List RollbackSQL) (evs : List AuditEvent) : AuditResult :=
  let evs1 := evs ++ [.storeUpdateExecuteSQLs]
  if ¬ env.updateExecuteSQLsOk then
    ⟨task2, evs1, some (.storage "UpdateExecuteSQLs")⟩
  else
    let task3 : Task :=
      if task2.executeSQLs.length ≠ 0 then
        { task2 with
          passRate := round ((normalCount task2.executeSQLs : ℚ) /
            (task2.executeSQLs.length : ℚ)) 4,
          status := .audited }
      else { task2 with status := .audited }
    let evs2 := evs1 ++ [.storeUpdateTask sqlType task3.passRate task3.status]
    if ¬ env.updateTaskOk then
      ⟨task3, evs2, some (.storage "UpdateTask")⟩
    else
      if rollbackSqls.length > 0 then
        let evs3 := evs2 ++ [.storeUpdateRollbackSQLs rollbackSqls]
        if ¬ env.updateRollbackSQLsOk then
          ⟨task3, evs3, some (.storage "UpdateRollbackSQLs")⟩
        else ⟨task3, evs3, none⟩
      else ⟨task3, evs2, none⟩

/-- Embedding of `Sqled.audit` as the composition of its three
phases, each aborting the workflow on error. -/
def audit (env : AuditEnv) (task : Task) : AuditResult :=
  match auditAdvise env task with
  | (task2, _, _, evs, some e) => ⟨task2, evs, some e⟩
  | (task2, sqlType, firstSqlInvalid, evs, none) =>
    match auditGenRollback env task firstSqlInvalid with
    | (_, genEvs, some e) => ⟨task2, evs ++ genEvs, some e⟩
    | (rollbackSqls, genEvs, none) =>
      auditPersist env task2 sqlType rollbackSqls (evs ++ genEvs)

/-! ### The commit workflow (source lines 249-401)

`Sqled.commit` dispatches on the stored SQL type, classifying the
batch first when the type is unset. `commitDDL` registers one handler
per statement and runs them in order through the inspector; the
handlers and the store calls are modelled directly, with driver
outcomes supplied by the environment. `Inspector.Do` is not part of
the sources; modelled from the spec, it runs the registered handlers
one at a time in sequence order and stops at the first failure,
returning it. -/

/-- Events emitted by the commit and rollback workflows. -/
inductive CommitEvent
  | parseSqlTypeCall
  | storeUpdExecStatus (number : Nat) (st : SQLExecuteStatus)
  | backupFetch (content : String)
  | backupExecStmt (content : String)
  | backupExecFailed (content : String)
  | execStmt (number : Nat)
  | txExec (numbers : List Nat)
  | storeSave (number : Nat)
  | storeSetTaskStatus (st : TaskStatus)
  | storeBulkUpdExecStatus (st : SQLExecuteStatus)
  | storeUpdExecuteSQLs
  | storeUpdRollbackStatus (number : Nat) (st : SQLExecuteStatus)
  deriving DecidableEq, Repr

/-- Whether an event is an execution of a statement against the
database. -/
def CommitEvent.isExec : CommitEvent → Bool
  | .execStmt _ => true
  | .txExec _ => true
  | .backupExecStmt _ => true
  | _ => false

/-- Whether an event is an update of the task store. -/
def CommitEvent.isStore : CommitEvent → Bool
  | .storeUpdExecStatus _ _ => true
  | .storeSave _ => true
  | .storeSetTaskStatus _ => true
  | .storeBulkUpdExecStatus _ => true
  | .storeUpdExecuteSQLs => true
  | .storeUpdRollbackStatus _ _ => true
  | _ => false

/-- Environment of call outcomes for the commit workflow. Driver
execution outcomes are an execution-result text and status per
statement number; store operations succeed or fail per the flags. -/
structure CommitEnv where
  parseSqlType : Except Err SqlType
  updExecStatusDoingOk : Nat → Bool
  backupSqls : String → Except Err (Option (List String))
  backupExecOk : String → Bool
  ddlExec : Nat → String × SQLExecuteStatus
  saveOk : Nat → Bool
  updTaskStatusOk : TaskStatus → Bool
  parseStmt : String → Except Err Unit
  bulkUpdDoingOk : Bool
  dmlExec : Nat → String × SQLExecuteStatus
  updExecSQLsOk : Bool

/-- Result of a commit or rollback workflow run: the task as mutated
in memory, the task status recorded in the store at the end, the call
trace, and the returned error. -/
structure CommitResult where
  task : Task
  storedStatus : TaskStatus
  events : List CommitEvent
  err : Option Err
  deriving Repr

/-- Embedding of the per-statement handler registered by
`Sqled.commitDDL` (source lines 292-327): mark the statement doing,
fetch and best-effort execute the backup statements on the
procedure/function path, execute the statement, persist it, and fail
the handler when the execution result is not ok. -/
def runDDLHandler (env : CommitEnv) (isProcedureFunction : Bool) (sql : ExecuteSQL) :
    ExecuteSQL × List CommitEvent × Option Err :=
  let n := sql.base.number
  let ev0 : List CommitEvent := [.storeUpdExecStatus n .doing]
  if ¬ env.updExecStatusDoingOk n then
    (sql, ev0, some (.storage "UpdateExecuteSqlStatus"))
  else
    let backupStep : List CommitEvent × Option Err :=
      if isProcedureFunction then
        match env.backupSqls sql.base.content with
        | .error e => ([.backupFetch sql.base.content], some e)
        | .ok none => ([.backupFetch sql.base.content], none)
        | .ok (some bs) =>
          (.backupFetch sql.base.content ::
            (bs.map fun b =>
              if env.backupExecOk b then [CommitEvent.backupExecStmt b]
              else [CommitEvent.backupExecStmt b, .backupExecFailed b]).flatten, none)
      else ([], none)
    match backupStep with
    | (evB, some e) => (sql, ev0 ++ evB, some e)
    | (evB, none) =>
      let p := env.ddlExec n
      let sql' : ExecuteSQL :=
        { sql with base := { sql.base with execResult := p.1, execStatus := p.2 } }
      let evE := ev0 ++ evB ++ [.execStmt n, .storeSave n]
      if p.1 ≠ "ok" then
        (sql', evE, some .execDDLFailed)
      else if ¬ env.saveOk n then
        (sql', evE, some (.storage "Save"))
      else
        (sql', evE, none)

/-- Modelled from the spec: `Inspector.Do` runs the registered
handlers one per statement, in sequence order, stopping at the first
handler failure and returning it. -/
def runDDLHandlers (env : CommitEnv) (isProcedureFunction : Bool) :
    List ExecuteSQL → List ExecuteSQL × List CommitEvent × Option Err
  | [] => ([], [], none)
  | sql :: rest =>
    match runDDLHandler env isProcedureFunction sql with
    | (sql', evs, some e) => (sql' :: rest, evs, some e)
    | (sql', evs, none) =>
      let q := runDDLHandlers env isProcedureFunction rest
      (sql' :: q.1, evs ++ q.2.1, q.2.2)

/-- Embedding of `Sqled.commitDDL` (source lines 283-353): handlers
are registered, the task status is set to executing in the store, the
handlers run, and the final status is exec-failed when any statement
execution status ended failed, else exec-succeeded; the handler-run
error itself is only logged. -/
def commitDDL (env : CommitEnv) (task : Task) (isProcedureFunction : Bool) : CommitResult :=
  if ¬ env.updTaskStatusOk .executing then
    ⟨task, task.status, [.storeSetTaskStatus .executing], some (.storage "UpdateTaskStatusById")⟩
  else
    let p := runDDLHandlers env isProcedureFunction task.executeSQLs
    let task1 : Task := { task with executeSQLs := p.1 }
    let finalStatus : TaskStatus :=
      if task1.executeSQLs.any (fun s => s.base.execStatus = .failed) then .execFailed
      else .execSucceeded
    let evs := (CommitEvent.storeSetTaskStatus .executing :: p.2.1) ++
      [.storeSetTaskStatus finalStatus]
    if ¬ env.updTaskStatusOk finalStatus then
      ⟨task1, .executing, evs, some (.storage "UpdateTaskStatusById")⟩
    else
      ⟨task1, finalStatus, evs, none⟩

/-- Parse every statement of the DML batch in order, failing at the
first statement the driver cannot parse (source lines 369-377). -/
def parseAll (env : CommitEnv) : List ExecuteSQL → Except Err Unit
  | [] => .ok ()
  | sql :: rest =>
    match env.parseStmt sql.base.content with
    | .error e => .error e
    | .ok _ => parseAll env rest

/-- Embedding of `Sqled.commitDML` (source lines 355-401): mark all
statements doing in bulk, re-parse them, set the task executing,
execute the batch as one transactional unit, persist the statement
records, and set the final status by the same any-failed rule. A
failure persisting the statement records sets the stored status to
exec-failed and returns the storage error. -/
def commitDML (env : CommitEnv) (task : Task) : CommitResult :=
  let ev0 : List CommitEvent := [.storeBulkUpdExecStatus .doing]
  if ¬ env.bulkUpdDoingOk then
    ⟨task, task.status, ev0, some (.storage "UpdateExecuteSQLStatusByTaskId")⟩
  else
    match parseAll env task.executeSQLs with
    | .error e => ⟨task, task.status, ev0, some e⟩
    | .ok _ =>
      if ¬ env.updTaskStatusOk .executing then
        ⟨task, task.status, ev0 ++ [.storeSetTaskStatus .executing],
          some (.storage "UpdateTaskStatusById")⟩
      else
        let sqls' := task.executeSQLs.map fun sql =>
          let p := env.dmlExec sql.base.number
          { sql with base := { sql.base with execResult := p.1, execStatus := p.2 } }
        let task1 : Task := { task with executeSQLs := sqls' }
        let evs := ev0 ++ [.storeSetTaskStatus .executing,
          .txExec (task.executeSQLs.map fun s => s.base.number), .storeUpdExecuteSQLs]
        if ¬ env.updExecSQLsOk then
          if env.updTaskStatusOk .execFailed then
            ⟨task1, .execFailed, evs ++ [.storeSetTaskStatus .execFailed],
              some (.storage "UpdateExecuteSQLs")⟩
          else
            ⟨task1, .executing, evs ++ [.storeSetTaskStatus .execFailed],
              some (.storage "UpdateExecuteSQLs")⟩
        else
          let finalStatus : TaskStatus :=
            if sqls'.any (fun s => s.base.execStatus = .failed) then .execFailed
            else .execSucceeded
          let evs2 := evs ++ [.storeSetTaskStatus finalStatus]
          if ¬ env.updTaskStatusOk finalStatus then
            ⟨task1, .executing, evs2, some (.storage "UpdateTaskStatusById")⟩
          else
            ⟨task1, finalStatus, evs2, none⟩

/-- Prefix the classification call to the trace of a dispatched
run. -/
def withParseEvent (r : CommitResult) : CommitResult :=
  { r with events := .parseSqlTypeCall :: r.events }

/-- Embedding of `Sqled.commit` (source lines 249-281): dispatch on
the stored SQL type; when it is unset, classify the batch by parsing
first, returning the conflict errors for the two mixed states without
executing anything. -/
def commit (env : CommitEnv) (task : Task) : CommitResult :=
  if task.sqlType = .dml then commitDML env task
  else if task.sqlType = .ddl then commitDDL env task false
  else if task.sqlType = .procedureFunction then commitDDL env task true
  else
    match env.parseSqlType with
    | .error e => ⟨task, task.status, [.parseSqlTypeCall], some e⟩
    | .ok ty =>
      match ty with
      | .dml => withParseEvent (commitDML env task)
      | .ddl => withParseEvent (commitDDL env task false)
      | .multi => ⟨task, task.status, [.parseSqlTypeCall], some .sqlTypeConflict⟩
      | .procedureFunction => withParseEvent (commitDDL env task true)
      | .procedureFunctionMulti =>
        ⟨task, task.status, [.parseSqlTypeCall], some .procedureFunctionConflict⟩
      | .unknown => ⟨task, task.status, [.parseSqlTypeCall], none⟩

/-! ### The rollback workflow (source lines 403-453) -/

/-- Environment of call outcomes for the rollback workflow. -/
structure RollbackEnv where
  updRollbackStatusOk : Nat → Bool
  rbExec : Nat → String × SQLExecuteStatus
  saveOk : Nat → Bool

/-- Embedding of the per-statement handler registered by
`Sqled.rollback` (source lines 415-440): mark the rollback statement
doing, dispatch on the classified SQL type of the task (DDL and DML
execute the statement, the two conflict types abort, the
procedure/function type executes nothing), then persist the
record. -/
def runRollbackHandler (env : RollbackEnv) (sqlType : SqlType) (sql : RollbackSQL) :
    RollbackSQL × List CommitEvent × Option Err :=
  let n := sql.base.number
  let ev0 : List CommitEvent := [.storeUpdRollbackStatus n .doing]
  if ¬ env.updRollbackStatusOk n then
    (sql, ev0, some (.storage "UpdateRollbackSqlStatus"))
  else
    match sqlType with
    | .multi => (sql, ev0, some .sqlTypeConflict)
    | .procedureFunctionMulti => (sql, ev0, some .procedureFunctionConflict)
    | .ddl =>
      let p := env.rbExec n
      let sql' : RollbackSQL :=
        { sql with base := { sql.base with execResult := p.1, execStatus := p.2 } }
      let evs := ev0 ++ [.execStmt n, .storeSave n]
      if ¬ env.saveOk n then (sql', evs, some (.storage "Save")) else (sql', evs, none)
    | .dml =>
      let p := env.rbExec n
      let sql' : RollbackSQL :=
        { sql with base := { sql.base with execResult := p.1, execStatus := p.2 } }
      let evs := ev0 ++ [.txExec [n], .storeSave n]
      if ¬ env.saveOk n then (sql', evs, some (.storage "Save")) else (sql', evs, none)
    | _ =>
      let evs := ev0 ++ [.storeSave n]
      if ¬ env.saveOk n then (sql, evs, some (.storage "Save")) else (sql, evs, none)

/-- Modelled from the spec: the registered rollback handlers run in
order, skipping entries with empty content at registration time, and
stop at the first failure. -/
def runRollbackHandlers (env : RollbackEnv) (sqlType : SqlType) :
    List RollbackSQL → List RollbackSQL × List CommitEvent × Option Err
  | [] => ([], [], none)
  | sql :: rest =>
    if sql.base.content = "" then
      let q := runRollbackHandlers env sqlType rest
      (sql :: q.1, q.2.1, q.2.2)
    else
      match runRollbackHandler env sqlType sql with
      | (sql', evs, some e) => (sql' :: rest, evs, some e)
      | (sql', evs, none) =>
        let q := runRollbackHandlers env sqlType rest
        (sql' :: q.1, evs ++ q.2.1, q.2.2)

/-- Result of the rollback workflow. -/
structure RollbackResult where
  task : Task
  events : List CommitEvent
  err : Option Err
  deriving Repr

/-- Embedding of `Sqled.rollback`: run the handlers over the rollback
statements; the workflow never writes the task status, in memory or in
the store. -/
def rollback (env : RollbackEnv) (task : Task) : RollbackResult :=
  let p := runRollbackHandlers env task.sqlType task.rollbackSQLs
  ⟨{ task with rollbackSQLs := p.1 }, p.2.1, p.2.2⟩

end Sqle

namespace SqlserverProtoServer

/-! ### The SQL Server object-name keyword rule

Embedding of `ObjectNameShouldNotContainsKeywordRuleValidator` from the
SQL Server dialect backend. Collection of object names from the parsed
statement is done by the base validator and is taken here as the input
list; the rule logic flags each collected name whose upper-cased form
is in the fixed keyword list and reports all offending names of one
statement joined into a single advise result. C# `String.ToUpper` is
modelled as ASCII uppercasing. -/

/-- Embedding of the fixed keyword list `Keywords` of the source. -/
def Keywords : List String := [
  "ADD", "ALL", "ALTER", "AND", "ANY", "AS", "ASC", "AUTHORIZATION",
  "BACKUP", "BEGIN", "BETWEEN", "BREAK", "BROWSE", "BULK", "BY", "CASCADE",
  "CASE", "CHECK", "CHECKPOINT", "CLOSE", "CLUSTERED", "COALESCE", "COLLATE",
  "COLUMN", "COMMIT", "COMPUTE", "CONSTRAINT", "CONTAINS", "CONTAINSTABLE",
  "CONTINUE", "CONVERT", "CREATE", "CROSS", "CURRENT", "CURRENT_DATE",
  "CURRENT_TIME", "CURRENT_TIMESTAMP", "CURRENT_USER", "CURSOR", "DATABASE",
  "DBCC", "DEALLOCATE", "DECLARE", "DEFAULT", "DELETE", "DENY", "DESC",
  "DISK", "DISTINCT", "DISTRIBUTED", "DOUBLE", "DROP", "DUMMY", "DUMP",
  "ELSE", "END", "ERRLVL", "ESCAPE", "EXCEPT", "EXEC", "EXECUTE", "EXISTS",
  "EXIT", "FETCH", "FILE", "FILLFACTOR", "FOR", "FOREIGN", "FREETEXT",
  "FREETEXTTABLE", "FROM", "FULL", "FUNCTION", "GOTO", "GRANT", "GROUP",
  "HAVING", "HOLDLOCK", "IDENTITY", "IDENTITY_INSERT", "IDENTITYCOL", "IF",
  "IN", "INDEX", "INNER", "INSERT", "INTERSECT", "INTO", "IS", "JOIN", "KEY",
  "KILL", "LEFT", "LIKE", "LINENO", "LOAD", "NATIONAL", "NOCHECK",
  "NONCLUSTERED", "NOT", "NULL", "NULLIF", "OF", "OFF", "OFFSETS", "ON",
  "OPEN", "OPENDATASOURCE", "OPENQUERY", "OPENROWSET", "OPENXML", "OPTION",
  "OR", "ORDER", "OUTER", "OVER", "PERCENT", "PLAN", "PRECISION", "PRIMARY",
  "PRINT", "PROC", "PROCEDURE", "PUBLIC", "RAISERROR", "READ", "READTEXT",
  "RECONFIGURE", "REFERENCES", "REPLICATION", "RESTORE", "RESTRICT",
  "RETURN", "REVOKE", "RIGHT", "ROLLBACK", "ROWCOUNT", "ROWGUIDCOL", "RULE",
  "SAVE", "SCHEMA", "SELECT", "SESSION_USER", "SET", "SETUSER", "SHUTDOWN",
  "SOME", "STATISTICS", "SYSTEM_USER", "TABLE", "TEXTSIZE", "THEN", "TO",
  "TOP", "TRANSACTION", "TRIGGER", "TRUNCATE", "TSEQUAL", "UNION", "UNIQUE",
  "UPDATE", "UPDATETEXT", "USE", "USER", "VALUES", "VARYING", "VIEW",
  "WAITFOR", "WHEN", "WHERE", "WHILE", "WITH", "WRITETEXT"]

/-- ASCII uppercasing of one character, the behaviour of C#
`ToUpper` on the ASCII object names this rule handles. -/
def upperChar (c : Char) : Char :=
  if 97 ≤ c.toNat ∧ c.toNat ≤ 122 then Char.ofNat (c.toNat - 32) else c

/-- ASCII uppercasing of a string. -/
def toUpperStr (s : String) : String :=
  ⟨s.data.map upperChar⟩

/-- Embedding of `IsReserveredKeyword` (source lines 141-143): the
name is flagged when its upper-cased form is contained in the keyword
list. -/
def isReserveredKeyword (name : String) : Bool :=
  Keywords.contains (toUpperStr name)

/-- Embedding of the advise-result part of `Check` (source lines
119-135): collect the flagged names among the collected object names
of one statement; when any exist, add one advise result whose message
joins them with a comma. -/
def checkKeywordAdvise (names : List String) : Option String :=
  let invalidNames := names.filter fun n => isReserveredKeyword n
  if invalidNames.length > 0 then some (String.intercalate "," invalidNames)
  else none

end SqlserverProtoServer

namespace Sqle

/-! ### Witness fixtures: concrete tasks, environments and scheduler
states used to instantiate the theorems below. -/

/-- A concrete statement record. -/
def wBase (n : Nat) (c : String) : BaseSQL :=
  ⟨n, c, .initialized, ""⟩

/-- A concrete executable statement with a given audit level. -/
def wSql (n : Nat) (c : String) (lvl : String) : ExecuteSQL :=
  ⟨wBase n c, "finished", "", lvl⟩

/-- A concrete unclassified task with a mixed DDL and DML batch, the
scenario of the spec. -/
def wTask : Task :=
  { id := 1, instanceId := 1, schemaName := "db1", sqlType := .unknown,
    sqlSource := "form_data", passRate := 0, status := .initialized,
    executeSQLs := [wSql 1 "CREATE TABLE t(id int)" "normal",
      wSql 2 "INSERT INTO t VALUES(1)" "error"],
    rollbackSQLs := [] }

/-- A concrete DML task. -/
def wDmlTask : Task :=
  { wTask with sqlType := .dml }

/-- A concrete procedure/function task with one statement. -/
def wPFTask : Task :=
  { wTask with
    sqlType := .procedureFunction
    executeSQLs := [wSql 1 "CREATE PROCEDURE p" "normal"] }

/-- A store environment in which the task exists and every action is
permitted. -/
def wStoreEnv : StoreEnv :=
  ⟨fun _ => .ok (some wTask), fun _ _ => true⟩

/-- A store environment in which no task exists. -/
def wStoreEnvMissing : StoreEnv :=
  ⟨fun _ => .ok none, fun _ _ => true⟩

/-- A store environment in which the task exists but the requested
action is forbidden by its status. -/
def wStoreEnvForbidden : StoreEnv :=
  ⟨fun _ => .ok (some wTask), fun _ _ => false⟩

/-- The empty scheduler state. -/
def wState : SqledState :=
  ⟨[], []⟩

/-- A concrete advise outcome: one normal and one error statement,
batch valid, aggregate type DML. -/
def wAdvised : AdviseOutcome :=
  ⟨[wSql 1 "CREATE TABLE t(id int)" "normal",
    wSql 2 "INSERT INTO t VALUES(1)" "error"], false, .dml⟩

/-- An audit environment in which every call succeeds. -/
def wAuditEnv : AuditEnv :=
  { getRules := .ok ()
    advise := fun _ => .ok wAdvised
    getRelatedDDLTask := .ok []
    genRollback := .ok [⟨wBase 1 "DROP TABLE t"⟩]
    updateExecuteSQLsOk := true
    updateTaskOk := true
    updateRollbackSQLsOk := true }

/-- The first-pass outcome judging the batch invalid. -/
def wAdvisedInvalid : AdviseOutcome :=
  { wAdvised with sqlInvalid := true }

/-- An audit environment whose first pass judges a DML batch invalid
and whose store returns one related DDL task. -/
def wAuditEnvRetry : AuditEnv :=
  { wAuditEnv with
    advise := (fun related =>
      match related with
      | none => .ok wAdvisedInvalid
      | some _ => .ok wAdvised)
    getRelatedDDLTask := .ok [wTask] }

/-- A commit environment in which every store call succeeds, every
execution succeeds, and classification reports the
mixed-statement-types state. -/
def wCommitEnv : CommitEnv :=
  { parseSqlType := .ok .multi
    updExecStatusDoingOk := fun _ => true
    backupSqls := fun _ => .ok none
    backupExecOk := fun _ => true
    ddlExec := fun _ => ("ok", .succeeded)
    saveOk := fun _ => true
    updTaskStatusOk := fun _ => true
    parseStmt := fun _ => .ok ()
    bulkUpdDoingOk := true
    dmlExec := fun _ => ("ok", .succeeded)
    updExecSQLsOk := true }

/-- A commit environment in which fetching the procedure/function
backup statements from the backend fails. -/
def wCommitEnvBackupFail : CommitEnv :=
  { wCommitEnv with backupSqls := fun _ => .error (.driver "GetProcedureFunctionBackupSql") }

/-- A rollback environment in which every call succeeds. -/
def wRollbackEnv : RollbackEnv :=
  { updRollbackStatusOk := fun _ => true
    rbExec := fun _ => ("ok", .succeeded)
    saveOk := fun _ => true }

/-! ### Helper lemmas -/

/-- Truncation toward zero agrees with the floor on nonnegative
arguments. -/
theorem trunc_eq_floor {q : ℚ} (h : 0 ≤ q) : trunc q = ⌊q⌋ := by
  simp [trunc, h]

/-- On nonnegative arguments the source rounding helper is exactly
round-half-up. -/
theorem round_eq_roundHalfUpSpec {f : ℚ} (n : Nat) (h : 0 ≤ f) :
    round f n = roundHalfUpSpec f n := by
  unfold round roundHalfUpSpec
  rw [trunc_eq_floor]
  positivity

/-- The DDL commit path only rewrites the statement list of the
in-memory task. -/
theorem commitDDL_passRate (env : CommitEnv) (task : Task) (pf : Bool) :
    (commitDDL env task pf).task.passRate = task.passRate := by
  unfold commitDDL
  split
  · rfl
  · dsimp only
    repeat' split
    all_goals rfl

/-- The DML commit path only rewrites the statement list of the
in-memory task. -/
theorem commitDML_passRate (env : CommitEnv) (task : Task) :
    (commitDML env task).task.passRate = task.passRate := by
  unfold commitDML
  split
  · rfl
  · split
    · rfl
    · split
      · rfl
      · dsimp only
        repeat' split
        all_goals rfl

/-- The commit dispatcher never touches the pass rate. -/
theorem commit_passRate (env : CommitEnv) (task : Task) :
    (commit env task).task.passRate = task.passRate := by
  unfold commit
  split
  · exact commitDML_passRate env task
  · split
    · exact commitDDL_passRate env task false
    · split
      · exact commitDDL_passRate env task true
      · split
        · rfl
        · split
          · exact commitDML_passRate env task
          · exact commitDDL_passRate env task false
          · rfl
          · exact commitDDL_passRate env task true
          · rfl
          · rfl

/-- The per-statement rollback handler never emits a task-status store
update. -/
theorem runRollbackHandler_no_setStatus (env : RollbackEnv) (ty : SqlType)
    (sql : RollbackSQL) (st : TaskStatus) :
    CommitEvent.storeSetTaskStatus st ∉ (runRollbackHandler env ty sql).2.1 := by
  unfold runRollbackHandler
  dsimp only
  repeat' split
  all_goals simp

/-- The rollback handler loop never emits a task-status store
update. -/
theorem runRollbackHandlers_no_setStatus (env : RollbackEnv) (ty : SqlType)
    (l : List RollbackSQL) (st : TaskStatus) :
    CommitEvent.storeSetTaskStatus st ∉ (runRollbackHandlers env ty l).2.1 := by
  induction l with
  | nil => simp [runRollbackHandlers]
  | cons sql rest ih =>
    rw [runRollbackHandlers]
    split
    · exact ih
    · split
      next sql' evs e heq =>
        intro hmem
        exact runRollbackHandler_no_setStatus env ty sql st (by rw [heq]; exact hmem)
      next sql' evs heq =>
        intro hmem
        rcases List.mem_append.mp hmem with h | h
        · exact runRollbackHandler_no_setStatus env ty sql st (by rw [heq]; exact h)
        · exact ih h

/-- C9: the rollback workflow never modifies the task status field:
whatever the outcome, the task after the workflow differs from the
task before it only in the rollback statement list, and the workflow
performs no task-status store update. -/
theorem rollback_status_frame (env : RollbackEnv) (task : Task) :
    (rollback env task).task.status = task.status ∧
    (rollback env task).task =
      { task with rollbackSQLs := (rollback env task).task.rollbackSQLs } ∧
    ∀ st, CommitEvent.storeSetTaskStatus st ∉ (rollback env task).events := by
  refine ⟨rfl, rfl, fun st => ?_⟩
  exact runRollbackHandlers_no_setStatus env task.sqlType task.rollbackSQLs st

/-- Witness for C9 at a concrete environment and task. -/
theorem rollback_status_frame_witness :
    (rollback wRollbackEnv wTask).task.status = wTask.status ∧
    (rollback wRollbackEnv wTask).task =
      { wTask with rollbackSQLs := (rollback wRollbackEnv wTask).task.rollbackSQLs } ∧
    ∀ st, CommitEvent.storeSetTaskStatus st ∉ (rollback wRollbackEnv wTask).events :=
  rollback_status_frame wRollbackEnv wTask

/-- The advise-and-retry phase never touches the pass rate of the
in-memory task. -/
theorem auditAdvise_passRate (env : AuditEnv) (task : Task) :
    (auditAdvise env task).1.passRate = task.passRate := by
  unfold auditAdvise
  dsimp only
  repeat' split
  all_goals rfl

/-- Characterisation of the persistence phase on success: statements
are unchanged, and the pass rate is recomputed by the source rounding
helper exactly when the task has at least one statement. -/
theorem auditPersist_spec (env : AuditEnv) (task2 : Task) (ty : SqlType)
    (rsqls : List RollbackSQL) (evs : List AuditEvent)
    (h : (auditPersist env task2 ty rsqls evs).err = none) :
    (auditPersist env task2 ty rsqls evs).task.executeSQLs = task2.executeSQLs ∧
    (task2.executeSQLs.length ≠ 0 →
      (auditPersist env task2 ty rsqls evs).task.passRate =
        round ((normalCount task2.executeSQLs : ℚ) /
          (task2.executeSQLs.length : ℚ)) 4) ∧
    (task2.executeSQLs.length = 0 →
      (auditPersist env task2 ty rsqls evs).task.passRate = task2.passRate) := by
  by_cases h1 : env.updateExecuteSQLsOk <;>
  by_cases h2 : env.updateTaskOk <;>
  by_cases h3 : env.updateRollbackSQLsOk <;>
  by_cases hlen : task2.executeSQLs.length = 0 <;>
  by_cases hr : rsqls.length > 0 <;>
  simp_all [auditPersist]

/-- Every event of the advise-and-retry phase is an advise call. -/
theorem auditAdvise_events_only_advise (env : AuditEnv) (task : Task) :
    ∀ e ∈ (auditAdvise env task).2.2.2.1, e.isAdviseCall = true := by
  unfold auditAdvise
  dsimp only
  repeat' split
  all_goals intro e he
  all_goals simp at he
  all_goals first
    | (rcases he with rfl | rfl <;> rfl)
    | (rw [he]; rfl)

/-- The advise-and-retry phase captures the batch judgements of the
first advise pass. -/
theorem auditAdvise_captures (env : AuditEnv) (task task2 : Task) (ty : SqlType)
    (inv : Bool) (evs : List AuditEvent) (out1 : AdviseOutcome)
    (h1 : env.advise none = .ok out1)
    (hA : auditAdvise env task = (task2, ty, inv, evs, none)) :
    inv = out1.sqlInvalid ∧ ty = out1.sqlType := by
  unfold auditAdvise at hA
  rcases hg : env.getRules with e | u <;> rw [hg] at hA
  · simp at hA
  · rw [h1] at hA
    dsimp only at hA
    repeat' split at hA
    all_goals simp_all [Prod.mk.injEq]

/-- Retry characterisation of the advise-and-retry phase: exactly one
advise pass happens, or exactly two when the first pass judged a DML
batch invalid and the store returned at least one related DDL task;
any retry context is exactly the related task list the store
returned. -/
theorem auditAdvise_retry_spec (env : AuditEnv) (task : Task) (out1 : AdviseOutcome)
    (hr : env.getRules = .ok ())
    (h1 : env.advise none = .ok out1) :
    (adviseCount (auditAdvise env task).2.2.2.1 = 2 ↔
      (out1.sqlType = .dml ∧ out1.sqlInvalid = true ∧
        ∃ l, env.getRelatedDDLTask = .ok l ∧ 0 < l.length)) ∧
    (adviseCount (auditAdvise env task).2.2.2.1 = 1 ∨
      adviseCount (auditAdvise env task).2.2.2.1 = 2) ∧
    (∀ l, AuditEvent.adviseCall (some l) ∈ (auditAdvise env task).2.2.2.1 →
      env.getRelatedDDLTask = .ok l) := by
  refine ⟨?_, ?_, ?_⟩
  all_goals unfold auditAdvise
  all_goals rw [hr, h1]
  all_goals dsimp only
  all_goals by_cases hc : out1.sqlType = .dml ∧ out1.sqlInvalid = true
  all_goals first
  | (rcases hrel : env.getRelatedDDLTask with e | l
     · simp [hc, hrel, adviseCount, AuditEvent.isAdviseCall]
     · by_cases hl : l.length > 0
       · rcases h2 : env.advise (some l) with e | out2 <;>
           simp [hc, hrel, hl, h2, adviseCount, AuditEvent.isAdviseCall] <;>
           first
             | (intro l' hl'; rw [hl'])
             | skip
       · simp [hc, hrel, hl, adviseCount, AuditEvent.isAdviseCall]
         first
           | (intro l' hok
              rw [← hok] at hl
              omega)
           | skip)
  | (simp [hc, adviseCount, AuditEvent.isAdviseCall]
     first
       | (intro hty hinv
          exact absurd ⟨hty, hinv⟩ hc)
       | skip)

/-- The rollback-generation phase performs no advise pass. -/
theorem auditGenRollback_adviseCount (env : AuditEnv) (task : Task) (inv : Bool) :
    adviseCount (auditGenRollback env task inv).2.1 = 0 := by
  unfold auditGenRollback
  repeat' split
  all_goals rfl

/-- The rollback-generation phase calls the generator exactly when the
first pass did not judge the batch invalid and the task source is not
the MyBatis XML bulk import. -/
theorem auditGenRollback_genCall_mem (env : AuditEnv) (task : Task) (inv : Bool) :
    (AuditEvent.genRollbackCall ∈ (auditGenRollback env task inv).2.1 ↔
      (inv = false ∧ task.sqlSource ≠ TaskSQLSourceFromMyBatisXMLFile)) := by
  unfold auditGenRollback
  cases inv <;>
    by_cases hsrc : task.sqlSource = TaskSQLSourceFromMyBatisXMLFile <;>
    rcases hg : env.genRollback with e | sqls <;>
    simp [hsrc, hg]

/-- On success the rollback-generation phase returns exactly the
generator output, or the empty list when generation was skipped. -/
theorem auditGenRollback_result (env : AuditEnv) (task : Task) (inv : Bool)
    (rsqls : List RollbackSQL) (genEvs : List AuditEvent)
    (hG : auditGenRollback env task inv = (rsqls, genEvs, none)) :
    ((inv = false ∧ task.sqlSource ≠ TaskSQLSourceFromMyBatisXMLFile) →
      env.genRollback = .ok rsqls) ∧
    (¬(inv = false ∧ task.sqlSource ≠ TaskSQLSourceFromMyBatisXMLFile) →
      rsqls = []) := by
  unfold auditGenRollback at hG
  cases inv <;>
    by_cases hsrc : task.sqlSource = TaskSQLSourceFromMyBatisXMLFile <;>
    rcases hg : env.genRollback with e | sqls <;>
    simp_all

/-- Every event of the rollback-generation phase is the generator
call. -/
theorem auditGenRollback_events_shape (env : AuditEnv) (task : Task) (inv : Bool) :
    ∀ e ∈ (auditGenRollback env task inv).2.1, e = AuditEvent.genRollbackCall := by
  unfold auditGenRollback
  repeat' split
  all_goals simp

/-- The persistence phase adds no advise pass to the trace. -/
theorem auditPersist_adviseCount (env : AuditEnv) (task2 : Task) (ty : SqlType)
    (rsqls : List RollbackSQL) (evs : List AuditEvent) :
    adviseCount (auditPersist env task2 ty rsqls evs).events = adviseCount evs := by
  unfold auditPersist
  dsimp only
  repeat' split
  all_goals simp [adviseCount, List.filter_append, AuditEvent.isAdviseCall]

/-- Advise-call events pass through the persistence phase
unchanged. -/
theorem auditPersist_adviseCall_mem (env : AuditEnv) (task2 : Task) (ty : SqlType)
    (rsqls : List RollbackSQL) (evs : List AuditEvent) (x : Option (List Task)) :
    (AuditEvent.adviseCall x ∈ (auditPersist env task2 ty rsqls evs).events ↔
      AuditEvent.adviseCall x ∈ evs) := by
  unfold auditPersist
  dsimp only
  repeat' split
  all_goals simp

/-- Generator-call events pass through the persistence phase
unchanged. -/
theorem auditPersist_genCall_mem (env : AuditEnv) (task2 : Task) (ty : SqlType)
    (rsqls : List RollbackSQL) (evs : List AuditEvent) :
    (AuditEvent.genRollbackCall ∈ (auditPersist env task2 ty rsqls evs).events ↔
      AuditEvent.genRollbackCall ∈ evs) := by
  unfold auditPersist
  dsimp only
  repeat' split
  all_goals simp

/-- On success the persistence phase records a rollback-statement
store update exactly when the generated list is nonempty. -/
theorem auditPersist_rollbackStore_mem (env : AuditEnv) (task2 : Task) (ty : SqlType)
    (rsqls : List RollbackSQL) (evs : List AuditEvent)
    (hevs : ∀ l, AuditEvent.storeUpdateRollbackSQLs l ∉ evs)
    (h : (auditPersist env task2 ty rsqls evs).err = none) :
    ((∃ l, AuditEvent.storeUpdateRollbackSQLs l ∈ (auditPersist env task2 ty rsqls evs).events) ↔
      0 < rsqls.length) := by
  by_cases h1 : env.updateExecuteSQLsOk <;>
  by_cases h2 : env.updateTaskOk <;>
  by_cases h3 : env.updateRollbackSQLsOk <;>
  by_cases hr : rsqls.length > 0 <;>
  simp_all [auditPersist, hevs]

/-- The advise passes of the full audit workflow are exactly those of
its advise-and-retry phase, whatever the outcome. -/
theorem audit_adviseCalls (env : AuditEnv) (task : Task) :
    adviseCount (audit env task).events = adviseCount (auditAdvise env task).2.2.2.1 ∧
    (∀ l, AuditEvent.adviseCall (some l) ∈ (audit env task).events →
      AuditEvent.adviseCall (some l) ∈ (auditAdvise env task).2.2.2.1) := by
  rcases hA : auditAdvise env task with ⟨task2, ty, inv, evs, aerr⟩
  unfold audit
  rw [hA]
  cases aerr with
  | some e => simp
  | none =>
    dsimp only
    rcases hG : auditGenRollback env task inv with ⟨rsqls, genEvs, gerr⟩
    have hgc := auditGenRollback_adviseCount env task inv
    have hgs := auditGenRollback_events_shape env task inv
    rw [hG] at hgc hgs
    dsimp only at hgc hgs
    cases gerr with
    | some e =>
      try dsimp only
      constructor
      · simp only [adviseCount, List.filter_append, List.length_append] at hgc ⊢
        omega
      · intro l hl
        rcases List.mem_append.mp hl with hmem | hmem
        · exact hmem
        · exact absurd (hgs _ hmem) (by simp)
    | none =>
      try dsimp only
      constructor
      · rw [auditPersist_adviseCount]
        simp only [adviseCount, List.filter_append, List.length_append] at hgc ⊢
        omega
      · intro l hl
        rcases List.mem_append.mp ((auditPersist_adviseCall_mem env task2 ty rsqls
            (evs ++ genEvs) (some l)).mp hl) with hmem | hmem
        · exact hmem
        · exact absurd (hgs _ hmem) (by simp)

/-- C8: the audit advise pass runs once, or exactly twice when the
aggregate type of the first pass is DML, the first pass judged the
batch invalid, and the store returned at least one related DDL task;
any retry is supplied exactly the related task list the store
returned, so the retry happens at most once and with all related DDL
tasks together. -/
theorem audit_retry_at_most_once (env : AuditEnv) (task : Task) (out1 : AdviseOutcome)
    (hr : env.getRules = .ok ())
    (h1 : env.advise none = .ok out1) :
    (adviseCount (audit env task).events = 1 ∨
      adviseCount (audit env task).events = 2) ∧
    (adviseCount (audit env task).events = 2 ↔
      (out1.sqlType = .dml ∧ out1.sqlInvalid = true ∧
        ∃ l, env.getRelatedDDLTask = .ok l ∧ 0 < l.length)) ∧
    (∀ l, AuditEvent.adviseCall (some l) ∈ (audit env task).events →
      env.getRelatedDDLTask = .ok l) := by
  obtain ⟨hcnt, hmem⟩ := audit_adviseCalls env task
  obtain ⟨hiff, hor, hctx⟩ := auditAdvise_retry_spec env task out1 hr h1
  rw [hcnt]
  exact ⟨hor, hiff, fun l hl => hctx l (hmem l hl)⟩

/-- Witness for C8: an audit whose first pass judges a DML batch
invalid and whose store returns one related DDL task. -/
theorem audit_retry_at_most_once_witness :
    (wAuditEnvRetry.getRules = .ok () ∧
      wAuditEnvRetry.advise none = .ok wAdvisedInvalid) ∧
    ((adviseCount (audit wAuditEnvRetry wTask).events = 1 ∨
      adviseCount (audit wAuditEnvRetry wTask).events = 2) ∧
    (adviseCount (audit wAuditEnvRetry wTask).events = 2 ↔
      (wAdvisedInvalid.sqlType = .dml ∧ wAdvisedInvalid.sqlInvalid = true ∧
        ∃ l, wAuditEnvRetry.getRelatedDDLTask = .ok l ∧ 0 < l.length)) ∧
    (∀ l, AuditEvent.adviseCall (some l) ∈ (audit wAuditEnvRetry wTask).events →
      wAuditEnvRetry.getRelatedDDLTask = .ok l)) :=
  ⟨⟨rfl, rfl⟩, audit_retry_at_most_once wAuditEnvRetry wTask wAdvisedInvalid rfl rfl⟩

/-- C4: in a completed audit, the rollback generator is invoked
exactly when the first pass did not judge the batch invalid and the
task SQL source is not the MyBatis XML bulk import; and a
rollback-statement store update happens exactly when the generator
was invoked and produced a nonempty list. -/
theorem audit_rollback_generation (env : AuditEnv) (task : Task) (out1 : AdviseOutcome)
    (h : (audit env task).err = none)
    (h1 : env.advise none = .ok out1) :
    (AuditEvent.genRollbackCall ∈ (audit env task).events ↔
      (out1.sqlInvalid = false ∧ task.sqlSource ≠ TaskSQLSourceFromMyBatisXMLFile)) ∧
    ((∃ l, AuditEvent.storeUpdateRollbackSQLs l ∈ (audit env task).events) ↔
      (∃ l, env.genRollback = .ok l ∧ l ≠ [] ∧
        out1.sqlInvalid = false ∧ task.sqlSource ≠ TaskSQLSourceFromMyBatisXMLFile)) := by
  rcases hA : auditAdvise env task with ⟨task2, ty, inv, evs, aerr⟩
  have hadvise := auditAdvise_events_only_advise env task
  rw [hA] at hadvise
  dsimp only at hadvise
  unfold audit at h ⊢
  rw [hA] at h ⊢
  cases aerr with
  | some e => simp at h
  | none =>
    dsimp only at h ⊢
    obtain ⟨hinv, hty⟩ := auditAdvise_captures env task task2 ty inv evs out1 h1 hA
    have hGmem := auditGenRollback_genCall_mem env task inv
    have hgs := auditGenRollback_events_shape env task inv
    rcases hG : auditGenRollback env task inv with ⟨rsqls, genEvs, gerr⟩
    rw [hG] at h hGmem hgs
    dsimp only at hGmem hgs
    cases gerr with
    | some e => simp at h
    | none =>
      dsimp only at h ⊢
      obtain ⟨hGgen, hGskip⟩ := auditGenRollback_result env task inv rsqls genEvs hG
      have hadvNoGen : AuditEvent.genRollbackCall ∉ evs := by
        intro hmem
        have := hadvise _ hmem
        simp [AuditEvent.isAdviseCall] at this
      have hadvNoStore : ∀ l, AuditEvent.storeUpdateRollbackSQLs l ∉ evs ++ genEvs := by
        intro l hmem
        rcases List.mem_append.mp hmem with hm | hm
        · have := hadvise _ hm
          simp [AuditEvent.isAdviseCall] at this
        · exact absurd (hgs _ hm) (by simp)
      constructor
      · rw [auditPersist_genCall_mem]
        rw [List.mem_append]
        constructor
        · intro hmem
          rcases hmem with hm | hm
          · exact absurd hm hadvNoGen
          · rw [← hinv]
            exact hGmem.mp hm
        · intro hcond
          right
          rw [← hinv] at hcond
          exact hGmem.mpr hcond
      · rw [auditPersist_rollbackStore_mem env task2 ty rsqls (evs ++ genEvs) hadvNoStore h]
        constructor
        · intro hpos
          by_cases hcond : inv = false ∧ task.sqlSource ≠ TaskSQLSourceFromMyBatisXMLFile
          · refine ⟨rsqls, hGgen hcond, ?_, ?_, hcond.2⟩
            · intro heq
              rw [heq] at hpos
              simp at hpos
            · rw [← hinv]
              exact hcond.1
          · rw [hGskip hcond] at hpos
            simp at hpos
        · rintro ⟨l, hok, hne, hinvf, hsrc⟩
          have hcond : inv = false ∧ task.sqlSource ≠ TaskSQLSourceFromMyBatisXMLFile :=
            ⟨by rw [hinv]; exact hinvf, hsrc⟩
          have := hGgen hcond
          rw [this] at hok
          have hl : l = rsqls := by
            injection hok.symm
          rw [hl] at hne
          exact List.length_pos_of_ne_nil hne

/-- Witness for C4: a completed audit with rollback generation
enabled and a nonempty generated list. -/
theorem audit_rollback_generation_witness :
    ((audit wAuditEnv wTask).err = none ∧ wAuditEnv.advise none = .ok wAdvised) ∧
    ((AuditEvent.genRollbackCall ∈ (audit wAuditEnv wTask).events ↔
      (wAdvised.sqlInvalid = false ∧ wTask.sqlSource ≠ TaskSQLSourceFromMyBatisXMLFile)) ∧
    ((∃ l, AuditEvent.storeUpdateRollbackSQLs l ∈ (audit wAuditEnv wTask).events) ↔
      (∃ l, wAuditEnv.genRollback = .ok l ∧ l ≠ [] ∧
        wAdvised.sqlInvalid = false ∧
        wTask.sqlSource ≠ TaskSQLSourceFromMyBatisXMLFile))) :=
  ⟨⟨rfl, rfl⟩, audit_rollback_generation wAuditEnv wTask wAdvised rfl rfl⟩

/-- While a task id is in the running set, every further enqueue of
it fails with the task-running error and changes nothing. -/
theorem runAddTasks_running (env : StoreEnv) (s : SqledState) (id : String)
    (typ : ActionKind) (n : Nat) (h : id ∈ s.currentTask) :
    runAddTasks env s id typ n = (s, List.replicate n (some .taskRunning)) := by
  induction n with
  | zero => simp [runAddTasks]
  | succ m ih => simp [runAddTasks, addTask, h, ih, List.replicate_succ]

/-- C1: when N enqueue calls race on one task id (the guard lock
serialises them into some order), the first atomically inserts the id
into the running set and queues its action, every other call fails
with the task-running error, the id stays in the running set, and the
release performed when the action execution finishes removes it. -/
theorem addTask_race_at_most_one (env : StoreEnv) (s : SqledState) (id : String)
    (typ : ActionKind) (t : Task) (n : Nat)
    (h0 : id ∉ s.currentTask)
    (ht : env.getTaskDetailById id = .ok (some t))
    (hv : env.validActionOk t typ = true)
    (hn : 0 < n) :
    (runAddTasks env s id typ n).2 =
      none :: List.replicate (n - 1) (some .taskRunning) ∧
    (runAddTasks env s id typ n).1.currentTask = id :: s.currentTask ∧
    (runAddTasks env s id typ n).1.queue = s.queue ++ [(t, typ)] ∧
    (doRelease (runAddTasks env s id typ n).1 id).currentTask = s.currentTask := by
  obtain ⟨m, rfl⟩ : ∃ m, n = m + 1 := ⟨n - 1, (Nat.succ_pred_eq_of_pos hn).symm⟩
  have hstep : addTask env s id typ =
      ({ currentTask := id :: s.currentTask, queue := s.queue ++ [(t, typ)] }, none) := by
    simp [addTask, h0, ht, hv]
  have hrun := runAddTasks_running env
    ({ currentTask := id :: s.currentTask, queue := s.queue ++ [(t, typ)] } : SqledState)
    id typ m (List.mem_cons_self id _)
  simp [runAddTasks, hstep, hrun, doRelease]

/-- Witness for C1: three racing enqueues of task id 1 from the empty
scheduler state. -/
theorem addTask_race_at_most_one_witness :
    ("1" ∉ wState.currentTask ∧
      wStoreEnv.getTaskDetailById "1" = .ok (some wTask) ∧
      wStoreEnv.validActionOk wTask .audit = true ∧ 0 < 3) ∧
    ((runAddTasks wStoreEnv wState "1" .audit 3).2 =
      none :: List.replicate 2 (some .taskRunning) ∧
    (runAddTasks wStoreEnv wState "1" .audit 3).1.currentTask = "1" :: wState.currentTask ∧
    (runAddTasks wStoreEnv wState "1" .audit 3).1.queue = wState.queue ++ [(wTask, .audit)] ∧
    (doRelease (runAddTasks wStoreEnv wState "1" .audit 3).1 "1").currentTask =
      wState.currentTask) :=
  ⟨⟨by simp [wState], rfl, rfl, by decide⟩,
    addTask_race_at_most_one wStoreEnv wState "1" ActionKind.audit wTask 3
      (by simp [wState]) rfl rfl (by decide)⟩

/-- C7: an enqueue whose validation fails — unknown task id, or a
task status that forbids the requested action kind — releases the
running-task guard, queues nothing, and returns the matching error. -/
theorem addTask_validation_failure_releases (env : StoreEnv) (s : SqledState)
    (id : String) (typ : ActionKind)
    (h0 : id ∉ s.currentTask) :
    (env.getTaskDetailById id = .ok none →
      (addTask env s id typ).1.currentTask = s.currentTask ∧
      (addTask env s id typ).1.queue = s.queue ∧
      (addTask env s id typ).2 = some .taskNotExist) ∧
    (∀ t, env.getTaskDetailById id = .ok (some t) → env.validActionOk t typ = false →
      (addTask env s id typ).1.currentTask = s.currentTask ∧
      (addTask env s id typ).1.queue = s.queue ∧
      (addTask env s id typ).2 = some .actionNotAllowed) := by
  constructor
  · intro hg
    simp [addTask, h0, hg]
  · intro t hg hv
    simp [addTask, h0, hg, hv]

/-- Witness for C7: enqueue against a store with no such task and
against a store that forbids the action. -/
theorem addTask_validation_failure_releases_witness :
    "1" ∉ wState.currentTask ∧
    ((wStoreEnvMissing.getTaskDetailById "1" = .ok none →
      (addTask wStoreEnvMissing wState "1" .audit).1.currentTask = wState.currentTask ∧
      (addTask wStoreEnvMissing wState "1" .audit).1.queue = wState.queue ∧
      (addTask wStoreEnvMissing wState "1" .audit).2 = some .taskNotExist) ∧
    (∀ t, wStoreEnvMissing.getTaskDetailById "1" = .ok (some t) →
      wStoreEnvMissing.validActionOk t .audit = false →
      (addTask wStoreEnvMissing wState "1" .audit).1.currentTask = wState.currentTask ∧
      (addTask wStoreEnvMissing wState "1" .audit).1.queue = wState.queue ∧
      (addTask wStoreEnvMissing wState "1" .audit).2 = some .actionNotAllowed)) ∧
    ((wStoreEnvForbidden.getTaskDetailById "1" = .ok none →
      (addTask wStoreEnvForbidden wState "1" .rollback).1.currentTask = wState.currentTask ∧
      (addTask wStoreEnvForbidden wState "1" .rollback).1.queue = wState.queue ∧
      (addTask wStoreEnvForbidden wState "1" .rollback).2 = some .taskNotExist) ∧
    (∀ t, wStoreEnvForbidden.getTaskDetailById "1" = .ok (some t) →
      wStoreEnvForbidden.validActionOk t .rollback = false →
      (addTask wStoreEnvForbidden wState "1" .rollback).1.currentTask = wState.currentTask ∧
      (addTask wStoreEnvForbidden wState "1" .rollback).1.queue = wState.queue ∧
      (addTask wStoreEnvForbidden wState "1" .rollback).2 = some .actionNotAllowed)) :=
  ⟨by simp [wState],
    addTask_validation_failure_releases wStoreEnvMissing wState "1" ActionKind.audit
      (by simp [wState]),
    addTask_validation_failure_releases wStoreEnvForbidden wState "1" ActionKind.rollback
      (by simp [wState])⟩

/-- C3: on a task whose stored SQL type is unset, commit classifies
the batch first; the mixed-statement-types state aborts with the
statement-type-conflict error and the conflicting-procedure/function
state aborts with the procedure/function-conflict error, in both
cases before any statement is executed and before any store update. -/
theorem commit_unset_type_conflict_aborts (env : CommitEnv) (task : Task)
    (hunset : task.sqlType = .unknown) :
    (env.parseSqlType = .ok .multi →
      (commit env task).err = some .sqlTypeConflict ∧
      (commit env task).task = task ∧
      (commit env task).events = [.parseSqlTypeCall] ∧
      ∀ e ∈ (commit env task).events, e.isExec = false ∧ e.isStore = false) ∧
    (env.parseSqlType = .ok .procedureFunctionMulti →
      (commit env task).err = some .procedureFunctionConflict ∧
      (commit env task).task = task ∧
      (commit env task).events = [.parseSqlTypeCall] ∧
      ∀ e ∈ (commit env task).events, e.isExec = false ∧ e.isStore = false) := by
  constructor <;> intro hp <;>
    simp [commit, hunset, hp, CommitEvent.isExec, CommitEvent.isStore]

/-- Witness for C3: the spec scenario, a mixed DDL and DML batch on an
unclassified task. -/
theorem commit_unset_type_conflict_aborts_witness :
    wTask.sqlType = .unknown ∧
    (wCommitEnv.parseSqlType = .ok .multi →
      (commit wCommitEnv wTask).err = some .sqlTypeConflict ∧
      (commit wCommitEnv wTask).task = wTask ∧
      (commit wCommitEnv wTask).events = [.parseSqlTypeCall] ∧
      ∀ e ∈ (commit wCommitEnv wTask).events, e.isExec = false ∧ e.isStore = false) ∧
    (wCommitEnv.parseSqlType = .ok .procedureFunctionMulti →
      (commit wCommitEnv wTask).err = some .procedureFunctionConflict ∧
      (commit wCommitEnv wTask).task = wTask ∧
      (commit wCommitEnv wTask).events = [.parseSqlTypeCall] ∧
      ∀ e ∈ (commit wCommitEnv wTask).events, e.isExec = false ∧ e.isStore = false) :=
  ⟨rfl, commit_unset_type_conflict_aborts wCommitEnv wTask rfl⟩

/-- When the driver parses every statement, the DML parse loop
succeeds. -/
theorem parseAll_ok (env : CommitEnv) (l : List ExecuteSQL)
    (hp : ∀ c, env.parseStmt c = .ok ()) : parseAll env l = .ok () := by
  induction l with
  | nil => rfl
  | cons sql rest ih => simp [parseAll, hp, ih]

/-- Status lifecycle of the DDL and procedure/function commit path
when the task-status store updates succeed: the trace places the
executing update before every statement execution, and the stored
final status follows the any-failed rule over the statement execution
statuses. -/
theorem commitDDL_status_spec (env : CommitEnv) (task : Task) (pf : Bool)
    (hts : ∀ st, env.updTaskStatusOk st = true) :
    (∃ pre post,
      (commitDDL env task pf).events =
        pre ++ CommitEvent.storeSetTaskStatus .executing :: post ∧
      ∀ e ∈ pre, e.isExec = false) ∧
    (commitDDL env task pf).storedStatus =
      (if (commitDDL env task pf).task.executeSQLs.any
          (fun s => s.base.execStatus = .failed)
        then .execFailed else .execSucceeded) := by
  unfold commitDDL
  simp only [hts, not_true, if_false]
  dsimp only
  try simp only [hts, not_true, if_false]
  refine ⟨⟨[], _, rfl, by simp⟩, ?_⟩
  first
    | rfl
    | trivial

/-- Status lifecycle of the DML commit path when parsing and the
store updates succeed. -/
theorem commitDML_status_spec (env : CommitEnv) (task : Task)
    (hts : ∀ st, env.updTaskStatusOk st = true)
    (hBulk : env.bulkUpdDoingOk = true)
    (hParse : ∀ c, env.parseStmt c = .ok ())
    (hUpd : env.updExecSQLsOk = true) :
    (∃ pre post,
      (commitDML env task).events =
        pre ++ CommitEvent.storeSetTaskStatus .executing :: post ∧
      ∀ e ∈ pre, e.isExec = false) ∧
    (commitDML env task).storedStatus =
      (if (commitDML env task).task.executeSQLs.any
          (fun s => s.base.execStatus = .failed)
        then .execFailed else .execSucceeded) := by
  unfold commitDML
  rw [parseAll_ok env task.executeSQLs hParse]
  simp only [hts, hBulk, hUpd, not_true, if_false]
  dsimp only
  try simp only [hts, not_true, if_false]
  refine ⟨⟨[CommitEvent.storeBulkUpdExecStatus .doing], _, rfl,
    by simp [CommitEvent.isExec]⟩, ?_⟩
  first
    | rfl
    | trivial

/-- C5: on the DDL, procedure/function and DML commit paths, when the
store bookkeeping succeeds, the task status is set to executing in
the store before any statement executes, and the stored final status
is exec-failed exactly when some statement execution status ended
failed, else exec-succeeded. -/
theorem commit_status_lifecycle (env : CommitEnv) (task : Task)
    (hts : ∀ st, env.updTaskStatusOk st = true)
    (hBulk : env.bulkUpdDoingOk = true)
    (hParse : ∀ c, env.parseStmt c = .ok ())
    (hUpd : env.updExecSQLsOk = true)
    (hty : task.sqlType = .ddl ∨ task.sqlType = .procedureFunction ∨
      task.sqlType = .dml) :
    (∃ pre post,
      (commit env task).events =
        pre ++ CommitEvent.storeSetTaskStatus .executing :: post ∧
      ∀ e ∈ pre, e.isExec = false) ∧
    (commit env task).storedStatus =
      (if (commit env task).task.executeSQLs.any
          (fun s => s.base.execStatus = .failed)
        then .execFailed else .execSucceeded) := by
  rcases hty with h | h | h <;>
    simp only [commit, h] <;>
    first
      | exact commitDDL_status_spec env task false hts
      | exact commitDDL_status_spec env task true hts
      | exact commitDML_status_spec env task hts hBulk hParse hUpd

/-- Witness for C5: an all-succeeding environment on a DML task. -/
theorem commit_status_lifecycle_witness :
    ((∀ st, wCommitEnv.updTaskStatusOk st = true) ∧ wCommitEnv.bulkUpdDoingOk = true ∧
      (∀ c, wCommitEnv.parseStmt c = .ok ()) ∧ wCommitEnv.updExecSQLsOk = true ∧
      wDmlTask.sqlType = .dml) ∧
    ((∃ pre post,
      (commit wCommitEnv wDmlTask).events =
        pre ++ CommitEvent.storeSetTaskStatus .executing :: post ∧
      ∀ e ∈ pre, e.isExec = false) ∧
    (commit wCommitEnv wDmlTask).storedStatus =
      (if (commit wCommitEnv wDmlTask).task.executeSQLs.any
          (fun s => s.base.execStatus = .failed)
        then .execFailed else .execSucceeded)) :=
  ⟨⟨fun _ => rfl, rfl, fun _ => rfl, rfl, rfl⟩,
    commit_status_lifecycle wCommitEnv wDmlTask (fun _ => rfl) rfl (fun _ => rfl) rfl
      (Or.inr (Or.inr rfl))⟩

/-- The outcome of one DDL commit handler — the statement record it
produces and the error it returns — does not depend on whether the
best-effort backup executions succeed. -/
theorem runDDLHandler_backup_exec_irrelevant (env : CommitEnv) (g : String → Bool)
    (pf : Bool) (sql : ExecuteSQL) :
    (runDDLHandler { env with backupExecOk := g } pf sql).1 =
      (runDDLHandler env pf sql).1 ∧
    (runDDLHandler { env with backupExecOk := g } pf sql).2.2 =
      (runDDLHandler env pf sql).2.2 := by
  unfold runDDLHandler
  dsimp only
  cases pf <;>
    by_cases h1 : env.updExecStatusDoingOk sql.base.number <;>
    rcases hb : env.backupSqls sql.base.content with e | ob <;>
    (try rcases ob with _ | bs) <;>
    by_cases hres : (env.ddlExec sql.base.number).1 = "ok" <;>
    by_cases hsave : env.saveOk sql.base.number <;>
    simp_all

/-- The handler loop of the DDL commit path produces the same
statement records and the same error whatever the backup execution
outcomes. -/
theorem runDDLHandlers_backup_exec_irrelevant (env : CommitEnv) (g : String → Bool)
    (pf : Bool) (l : List ExecuteSQL) :
    (runDDLHandlers { env with backupExecOk := g } pf l).1 =
      (runDDLHandlers env pf l).1 ∧
    (runDDLHandlers { env with backupExecOk := g } pf l).2.2 =
      (runDDLHandlers env pf l).2.2 := by
  induction l with
  | nil => exact ⟨rfl, rfl⟩
  | cons sql rest ih =>
    obtain ⟨h1, h2⟩ := runDDLHandler_backup_exec_irrelevant env g pf sql
    unfold runDDLHandlers
    rcases hH : runDDLHandler env pf sql with ⟨sql', evs, err⟩
    try rw [hH]
    rcases hH' : runDDLHandler { env with backupExecOk := g } pf sql with ⟨sql'', evs', err'⟩
    try rw [hH']
    rw [hH, hH'] at h1 h2
    dsimp only at h1 h2
    rw [h1, h2]
    cases err with
    | some e => exact ⟨rfl, rfl⟩
    | none =>
      dsimp only
      exact ⟨by rw [ih.1], ih.2⟩

/-- The task, the error and the stored status of the DDL commit path
do not depend on whether the best-effort backup executions
succeed. -/
theorem commitDDL_backup_exec_irrelevant (env : CommitEnv) (g : String → Bool)
    (task : Task) (pf : Bool) :
    (commitDDL { env with backupExecOk := g } task pf).task =
      (commitDDL env task pf).task ∧
    (commitDDL { env with backupExecOk := g } task pf).err =
      (commitDDL env task pf).err ∧
    (commitDDL { env with backupExecOk := g } task pf).storedStatus =
      (commitDDL env task pf).storedStatus := by
  obtain ⟨h1, _⟩ := runDDLHandlers_backup_exec_irrelevant env g pf task.executeSQLs
  unfold commitDDL
  dsimp only
  rw [h1]
  split
  next => exact ⟨rfl, rfl, rfl⟩
  next =>
    try dsimp only
    repeat' split
    all_goals exact ⟨rfl, rfl, rfl⟩

/-- Counterexample to C6 as stated: with a backend whose
backup-statement fetch fails, the procedure/function commit performs
the backup fetch but never executes the main statement, and the
handler of that statement fails with the fetch error — so a failure
of the backup step does abort the main statement execution. -/
theorem commit_backup_fetch_abort_counterexample :
    CommitEvent.backupFetch "CREATE PROCEDURE p" ∈
      (commit wCommitEnvBackupFail wPFTask).events ∧
    CommitEvent.execStmt 1 ∉ (commit wCommitEnvBackupFail wPFTask).events ∧
    (runDDLHandler wCommitEnvBackupFail true (wSql 1 "CREATE PROCEDURE p" "normal")).2.2 =
      some (Err.driver "GetProcedureFunctionBackupSql") := by
  decide

/-- C6 amended: on the procedure/function commit path the backup
statements are fetched and executed before the main statement as a
best-effort safety net; the outcomes of executing them are only
logged and affect neither the statement records, nor the workflow
error, nor the stored status; but a failure of fetching the backup
statements aborts that statement handler with the fetch error, before
the main statement executes. -/
theorem commit_backup_best_effort (env : CommitEnv) (g : String → Bool)
    (task : Task) (pf : Bool) (sql : ExecuteSQL) (e : Err) (b : String)
    (bs : List String) :
    ((commitDDL { env with backupExecOk := g } task pf).task =
        (commitDDL env task pf).task ∧
      (commitDDL { env with backupExecOk := g } task pf).err =
        (commitDDL env task pf).err ∧
      (commitDDL { env with backupExecOk := g } task pf).storedStatus =
        (commitDDL env task pf).storedStatus) ∧
    (env.updExecStatusDoingOk sql.base.number = true →
      env.backupSqls sql.base.content = .ok (some bs) → b ∈ bs →
      env.backupExecOk b = false →
      CommitEvent.backupExecFailed b ∈ (runDDLHandler env true sql).2.1) ∧
    (env.updExecStatusDoingOk sql.base.number = true →
      env.backupSqls sql.base.content = .error e →
      (runDDLHandler env true sql).2.2 = some e ∧
      CommitEvent.execStmt sql.base.number ∉ (runDDLHandler env true sql).2.1) := by
  refine ⟨commitDDL_backup_exec_irrelevant env g task pf, ?_, ?_⟩
  · intro hupd hb hbin hgb
    have hmem : CommitEvent.backupExecFailed b ∈
        ((bs.map fun b' =>
          if env.backupExecOk b' then [CommitEvent.backupExecStmt b']
          else [CommitEvent.backupExecStmt b', .backupExecFailed b']).flatten) := by
      rw [List.mem_flatten]
      refine ⟨[CommitEvent.backupExecStmt b, .backupExecFailed b], ?_, by simp⟩
      rw [List.mem_map]
      exact ⟨b, hbin, by simp [hgb]⟩
    unfold runDDLHandler
    rw [hb]
    simp only [hupd, not_true, if_false, if_true]
    try dsimp only
    repeat' split
    all_goals simp [hmem]
  · intro hupd hb
    unfold runDDLHandler
    rw [hb]
    simp only [hupd, not_true, if_false]
    try dsimp only
    constructor
    · rfl
    · simp

/-- Witness for the amended C6 at a concrete environment. -/
theorem commit_backup_best_effort_witness :
    ((commitDDL { wCommitEnv with backupExecOk := fun _ => false } wPFTask true).task =
        (commitDDL wCommitEnv wPFTask true).task ∧
      (commitDDL { wCommitEnv with backupExecOk := fun _ => false } wPFTask true).err =
        (commitDDL wCommitEnv wPFTask true).err ∧
      (commitDDL { wCommitEnv with backupExecOk := fun _ => false } wPFTask true).storedStatus =
        (commitDDL wCommitEnv wPFTask true).storedStatus) ∧
    (wCommitEnv.updExecStatusDoingOk (wSql 1 "CREATE PROCEDURE p" "normal").base.number = true →
      wCommitEnv.backupSqls (wSql 1 "CREATE PROCEDURE p" "normal").base.content =
        .ok (some ["DROP PROCEDURE p"]) → "DROP PROCEDURE p" ∈ ["DROP PROCEDURE p"] →
      wCommitEnv.backupExecOk "DROP PROCEDURE p" = false →
      CommitEvent.backupExecFailed "DROP PROCEDURE p" ∈
        (runDDLHandler wCommitEnv true (wSql 1 "CREATE PROCEDURE p" "normal")).2.1) ∧
    (wCommitEnv.updExecStatusDoingOk (wSql 1 "CREATE PROCEDURE p" "normal").base.number = true →
      wCommitEnv.backupSqls (wSql 1 "CREATE PROCEDURE p" "normal").base.content =
        .error (Err.driver "GetProcedureFunctionBackupSql") →
      (runDDLHandler wCommitEnv true (wSql 1 "CREATE PROCEDURE p" "normal")).2.2 =
        some (Err.driver "GetProcedureFunctionBackupSql") ∧
      CommitEvent.execStmt (wSql 1 "CREATE PROCEDURE p" "normal").base.number ∉
        (runDDLHandler wCommitEnv true (wSql 1 "CREATE PROCEDURE p" "normal")).2.1) :=
  commit_backup_best_effort wCommitEnv (fun _ => false) wPFTask true
    (wSql 1 "CREATE PROCEDURE p" "normal") (Err.driver "GetProcedureFunctionBackupSql")
    "DROP PROCEDURE p" ["DROP PROCEDURE p"]

/-- C2: after a completed audit of a task with at least one
statement, the pass rate equals the count of normal-severity
statements divided by the statement count, rounded half-up to four
decimal places; a completed audit of a statement-less task leaves the
pass rate unchanged; and the commit and rollback workflows never
change the pass rate. -/
theorem audit_passRate_rounding (env : AuditEnv) (cenv : CommitEnv)
    (renv : RollbackEnv) (task tc tr : Task)
    (h : (audit env task).err = none) :
    ((audit env task).task.executeSQLs.length ≠ 0 →
      (audit env task).task.passRate =
        roundHalfUpSpec ((normalCount (audit env task).task.executeSQLs : ℚ) /
          ((audit env task).task.executeSQLs.length : ℚ)) 4) ∧
    ((audit env task).task.executeSQLs.length = 0 →
      (audit env task).task.passRate = task.passRate) ∧
    (commit cenv tc).task.passRate = tc.passRate ∧
    (rollback renv tr).task.passRate = tr.passRate := by
  have hcommit := commit_passRate cenv tc
  have hrb : (rollback renv tr).task.passRate = tr.passRate := rfl
  rcases hA : auditAdvise env task with ⟨task2, ty, inv, evs, aerr⟩
  have hpr2 : task2.passRate = task.passRate := by
    have hp := auditAdvise_passRate env task
    rw [hA] at hp
    exact hp
  unfold audit at h ⊢
  rw [hA] at h ⊢
  cases aerr with
  | some e => simp at h
  | none =>
    dsimp only at h ⊢
    rcases hG : auditGenRollback env task inv with ⟨rsqls, genEvs, gerr⟩
    rw [hG] at h
    cases gerr with
    | some e => simp at h
    | none =>
      dsimp only at h ⊢
      obtain ⟨hsqls, hpos, hzero⟩ := auditPersist_spec env task2 ty rsqls (evs ++ genEvs) h
      refine ⟨?_, ?_, hcommit, hrb⟩
      · intro hne
        rw [hsqls] at hne ⊢
        rw [hpos hne]
        exact round_eq_roundHalfUpSpec 4 (div_nonneg (Nat.cast_nonneg _) (Nat.cast_nonneg _))
      · intro hz
        rw [hsqls] at hz
        rw [hzero hz, hpr2]

/-- Witness for C2: a completed audit of a two-statement task, one
statement of normal severity. -/
theorem audit_passRate_rounding_witness :
    (audit wAuditEnv wTask).err = none ∧
    (((audit wAuditEnv wTask).task.executeSQLs.length ≠ 0 →
      (audit wAuditEnv wTask).task.passRate =
        roundHalfUpSpec ((normalCount (audit wAuditEnv wTask).task.executeSQLs : ℚ) /
          ((audit wAuditEnv wTask).task.executeSQLs.length : ℚ)) 4) ∧
    ((audit wAuditEnv wTask).task.executeSQLs.length = 0 →
      (audit wAuditEnv wTask).task.passRate = wTask.passRate) ∧
    (commit wCommitEnv wDmlTask).task.passRate = wDmlTask.passRate ∧
    (rollback wRollbackEnv wTask).task.passRate = wTask.passRate) :=
  ⟨rfl, audit_passRate_rounding wAuditEnv wCommitEnv wRollbackEnv wTask wDmlTask wTask rfl⟩

end Sqle

namespace SqlserverProtoServer

/-- C10: the keyword rule flags a collected object name exactly when
its upper-cased form is in the fixed keyword list, hence detection is
case-insensitive in the input name, and all offending names of one
statement are joined with commas into a single advise message. -/
theorem keyword_rule_case_insensitive_flags :
    (∀ name : String, isReserveredKeyword name = true ↔ toUpperStr name ∈ Keywords) ∧
    (∀ s t : String, toUpperStr s = toUpperStr t →
      isReserveredKeyword s = isReserveredKeyword t) ∧
    (∀ names : List String, (checkKeywordAdvise names).isSome = true ↔
      ∃ n ∈ names, isReserveredKeyword n = true) ∧
    (∀ names : List String, ∀ m, checkKeywordAdvise names = some m →
      m = String.intercalate "," (names.filter fun n => isReserveredKeyword n)) ∧
    checkKeywordAdvise ["Select", "x", "FROM"] = some "Select,FROM" ∧
    isReserveredKeyword "SeLeCt" = true ∧
    isReserveredKeyword "customer" = false := by
  refine ⟨?_, ?_, ?_, ?_, by decide, by decide, by decide⟩
  · intro name
    simp [isReserveredKeyword, List.elem_iff]
  · intro s t h
    simp [isReserveredKeyword, h]
  · intro names
    constructor
    · intro hs
      by_cases h : (names.filter fun n => isReserveredKeyword n).length > 0
      · obtain ⟨x, hx⟩ := List.exists_mem_of_length_pos h
        rcases List.mem_filter.mp hx with ⟨hmem, hflag⟩
        exact ⟨x, hmem, hflag⟩
      · exfalso
        simp [checkKeywordAdvise, h] at hs
    · rintro ⟨n, hn, hflag⟩
      have h : 0 < (names.filter fun n => isReserveredKeyword n).length :=
        List.length_pos_of_mem (List.mem_filter.mpr ⟨hn, hflag⟩)
      simp [checkKeywordAdvise, h]
  · intro names m hm
    unfold checkKeywordAdvise at hm
    dsimp only at hm
    split at hm
    · exact (Option.some.inj hm).symm
    · exact absurd hm (by simp)

/-- Witness for C10: case-insensitivity applied at two spellings of
the same keyword. -/
theorem keyword_rule_case_insensitive_flags_witness :
    toUpperStr "Select" = toUpperStr "sElEcT" ∧
    isReserveredKeyword "Select" = isReserveredKeyword "sElEcT" :=
  ⟨by decide, keyword_rule_case_insensitive_flags.2.1 "Select" "sElEcT" (by decide)⟩

end SqlserverProtoServer
